import Mathlib

/-!
Shallow embedding of the MicroAI-Paygate gateway (Go) used to check the
repository's specification: the response-cache middleware, the
request-timeout middleware with its buffered writer, the payment
verification call, receipt issuance, the token-bucket rate limiter and the
rate-limit retry computation.  Bodies are modelled as lists of characters
("bytes"); JSON rendering of the fixed gin maps follows `encoding/json`
(object keys of a Go map are marshalled in sorted order, struct fields in
declaration order).
-/

namespace Paygate

/-- Byte strings of the Go program are modelled as lists of characters. -/
abbrev Bytes := List Char

/-- Escape of one character inside a JSON string literal, as the relevant
fragment of `encoding/json` produces it for the strings this program emits. -/
def escChar (c : Char) : Bytes :=
  if c = '"' then ['\\', '"'] else if c = '\\' then ['\\', '\\'] else [c]

/-- JSON string-literal body encoding (contents between the quotes). -/
def encodeStringBody : Bytes → Bytes
  | [] => []
  | c :: cs => escChar c ++ encodeStringBody cs

/-- Inverse of `encodeStringBody`: reads a JSON string-literal body up to the
closing quote, returning the decoded contents and the remaining input.
Models the string-decoding step of `json.Unmarshal`. -/
def decodeStringBody : Bytes → Option (Bytes × Bytes)
  | [] => none
  | c :: rest =>
    if c = '"' then some ([], rest)
    else if c = '\\' then
      match rest with
      | [] => none
      | d :: rest2 =>
        match decodeStringBody rest2 with
        | some (s, r) => some (d :: s, r)
        | none => none
    else
      match decodeStringBody rest with
      | some (s, r) => some (c :: s, r)
      | none => none

/-- A JSON string literal with quotes, as `encoding/json` renders it. -/
def goQuote (s : Bytes) : Bytes := '"' :: (encodeStringBody s ++ ['"'])

theorem decodeStringBody_cons (c : Char) (rest : Bytes) :
    decodeStringBody (c :: rest) =
      if c = '"' then some ([], rest)
      else if c = '\\' then
        match rest with
        | [] => none
        | d :: rest2 =>
          match decodeStringBody rest2 with
          | some (s, r) => some (d :: s, r)
          | none => none
      else
        match decodeStringBody rest with
        | some (s, r) => some (c :: s, r)
        | none => none := by
  rw [decodeStringBody.eq_def]
  rfl

theorem decodeStringBody_encode (s t : Bytes) :
    decodeStringBody (encodeStringBody s ++ '"' :: t) = some (s, t) := by
  induction s with
  | nil => simp [encodeStringBody, decodeStringBody_cons]
  | cons c cs ih =>
    by_cases h1 : c = '"'
    · subst h1
      simp [encodeStringBody, escChar, decodeStringBody_cons, ih]
    · by_cases h2 : c = '\\'
      · subst h2
        simp [encodeStringBody, escChar, decodeStringBody_cons, ih]
      · simp [encodeStringBody, escChar, h1, h2, decodeStringBody_cons, ih]

/-- Drops an expected initial segment, returning the remainder on success. -/
def peelStart : Bytes → Bytes → Option Bytes
  | [], rest => some rest
  | _ :: _, [] => none
  | p :: ps, c :: cs => if c = p then peelStart ps cs else none

theorem peelStart_append (p l : Bytes) : peelStart p (p ++ l) = some l := by
  induction p with
  | nil => simp [peelStart]
  | cons c cs ih => simp [peelStart, ih]

/-! ## Data model (gateway `main.go`) -/

/-- PaymentContext, as declared in the gateway's `main.go`. -/
structure PaymentContext where
  recipient : Bytes
  token : Bytes
  amount : Bytes
  nonce : Bytes
  chainID : Int
deriving Repr, DecidableEq

/-- VerifyRequest: the body the gateway POSTs to the verifier's `/verify`. -/
structure VerifyRequest where
  context : PaymentContext
  signature : Bytes
deriving Repr, DecidableEq

/-- VerifyResponse: the verifier's structured reply. -/
structure VerifyResponse where
  is_valid : Bool
  recovered_address : Bytes
  error : Bytes
deriving Repr, DecidableEq

/-- Fixed configuration read from the environment at call time
(`getRecipientAddress`, `getPaymentAmount`, `getChainID`). -/
structure GatewayConfig where
  recipientAddress : Bytes
  paymentAmount : Bytes
  chainID : Int
deriving Repr, DecidableEq

/-- The PaymentContext `verifyPayment` builds: configured recipient, the USDC
token, configured amount, the caller-supplied nonce and configured chain id. -/
def verifyPaymentContext (cfg : GatewayConfig) (nonce : Bytes) : PaymentContext :=
  { recipient := cfg.recipientAddress
    token := "USDC".toList
    amount := cfg.paymentAmount
    nonce := nonce
    chainID := cfg.chainID }

/-- The PaymentContext `createPaymentContext` returns for a 402 challenge; the
nonce is a freshly generated UUID, modelled as an input. -/
def createPaymentContext (cfg : GatewayConfig) (freshNonce : Bytes) : PaymentContext :=
  { recipient := cfg.recipientAddress
    token := "USDC".toList
    amount := cfg.paymentAmount
    nonce := freshNonce
    chainID := cfg.chainID }

/-! ## HTTP responses and the JSON bodies the gateway writes -/

/-- Payment details of a receipt (payer, recipient, amount, token, nonce). -/
structure PaymentDetails where
  payer : Bytes
  recipient : Bytes
  amount : Bytes
  token : Bytes
  nonce : Bytes
deriving Repr, DecidableEq

/-- Service details of a receipt (endpoint path and content hashes). -/
structure ServiceDetails where
  endpoint : Bytes
  requestHash : Bytes
  responseHash : Bytes
deriving Repr, DecidableEq

/-- Receipt body: id, schema version, issuance timestamp, payment and service
details.  The timestamp is a Unix instant; `0` models Go's zero time. -/
structure Receipt where
  id : Bytes
  version : Bytes
  timestamp : Int
  payment : PaymentDetails
  service : ServiceDetails
deriving Repr, DecidableEq

/-- A receipt together with the server's signature and public key. -/
structure SignedReceipt where
  receipt : Receipt
  signature : Bytes
  serverPublicKey : Bytes
deriving Repr, DecidableEq

/-- An HTTP response as observed by the client: status, ordinary headers, the
optional `X-402-Receipt` header (kept structured), and the body bytes. -/
structure HttpResponse where
  status : Nat
  headers : List (Bytes × Bytes)
  body : Bytes
  receiptHeader : Option SignedReceipt := none
deriving Repr, DecidableEq

/-- Content-Type header gin attaches to JSON responses. -/
def contentTypeJSON : Bytes × Bytes :=
  ("Content-Type".toList, "application/json; charset=utf-8".toList)

/-- A response produced by `c.JSON(status, body)`. -/
def jsonResponse (status : Nat) (body : Bytes) : HttpResponse :=
  { status := status, headers := [contentTypeJSON], body := body }

def intToBytes (i : Int) : Bytes := (toString i).toList

/-- Marshal of the 504 body the handler sends when the verifier call hit its
deadline. -/
def verifierTimeoutBody : Bytes :=
  "\x7b\"error\":\"Gateway Timeout\",\"message\":\"Verifier request timed out\"\x7d".toList

/-- Marshal of the 500 body for a failed verification service call. -/
def verificationFailedBody : Bytes :=
  "\x7b\"error\":\"Verification Service Failed\",\"message\":\"An internal error occurred\"\x7d".toList

/-- Marshal of the 403 body: `gin.H` is a map, so `encoding/json` emits its
keys in sorted order (`details` before `error`). -/
def invalidSignatureBody (details : Bytes) : Bytes :=
  "\x7b\"details\":".toList ++ goQuote details ++ ",\"error\":\"Invalid Signature\"\x7d".toList

def payloadTooLargeBody : Bytes :=
  "\x7b\"error\":\"Payload too large\",\"max_size\":\"10MB\"\x7d".toList

def bodyReadFailBody : Bytes :=
  "\x7b\"error\":\"Failed to read request body\"\x7d".toList

def invalidRequestBody : Bytes :=
  "\x7b\"error\":\"Invalid request body\"\x7d".toList

def emptyTextBody : Bytes :=
  "\x7b\"error\":\"Invalid request\",\"message\":\"text field cannot be empty\"\x7d".toList

def aiTimeoutBody : Bytes :=
  "\x7b\"error\":\"Gateway Timeout\",\"message\":\"AI request timed out\"\x7d".toList

def aiFailedBody (details : Bytes) : Bytes :=
  "\x7b\"details\":".toList ++ goQuote details ++ ",\"error\":\"AI Service Failed\"\x7d".toList

def genReceiptFailBody (details : Bytes) : Bytes :=
  "\x7b\"details\":".toList ++ goQuote details ++ ",\"error\":\"Failed to generate receipt\"\x7d".toList

def storeReceiptFailBody : Bytes :=
  "\x7b\"error\":\"Failed to store receipt\"\x7d".toList

/-- Marshal of a PaymentContext: struct fields are emitted in declaration
order by `encoding/json`. -/
def paymentContextJSON (pc : PaymentContext) : Bytes :=
  "\x7b\"recipient\":".toList ++ goQuote pc.recipient ++
  ",\"token\":".toList ++ goQuote pc.token ++
  ",\"amount\":".toList ++ goQuote pc.amount ++
  ",\"nonce\":".toList ++ goQuote pc.nonce ++
  ",\"chainId\":".toList ++ intToBytes pc.chainID ++ "\x7d".toList

def paymentRequiredBody (pc : PaymentContext) : Bytes :=
  "\x7b\"error\":\"Payment Required\",\"message\":\"Please sign the payment context\",\"paymentContext\":".toList
    ++ paymentContextJSON pc ++ "\x7d".toList

/-- Marshal of the success body `map\x7b"result": aiResult\x7d` built in
`generateAndSendReceipt` and re-marshalled by `c.JSON(200, responseMap)`:
both call `encoding/json` on the same one-key map, hence one definition. -/
def jsonMarshalResult (r : Bytes) : Bytes :=
  "\x7b\"result\":\"".toList ++ encodeStringBody r ++ "\"\x7d".toList

/-! ## verifyPayment (gateway `main.go`) -/

/-- Outcome of decoding the verifier's reply body.  A failed decode carries
whether the underlying read error wraps `context.DeadlineExceeded`
(`errors.Is` on the wrapped error observes it). -/
inductive DecodeOutcome
  | ok (resp : VerifyResponse)
  | failed (wrapsDeadlineExceeded : Bool)
deriving Repr, DecidableEq

/-- Observable outcome of the HTTP POST to the verifier: a transport error
(carrying whether it wraps `context.DeadlineExceeded`) or a reply with a
status code and a decode outcome for its body. -/
inductive WireOutcome
  | transportErr (wrapsDeadlineExceeded : Bool)
  | reply (statusCode : Nat) (body : DecodeOutcome)
deriving Repr, DecidableEq

/-- The typed failures `verifyPayment` returns, one per `return nil, nil, err`
site: transport failure, non-200 verifier status, or decode failure. -/
inductive VerifyErr
  | requestFailed (wrapsDeadlineExceeded : Bool)
  | badStatus (code : Nat)
  | decodeFailed (wrapsDeadlineExceeded : Bool)
deriving Repr, DecidableEq

/-- Whether `errors.Is(err, context.DeadlineExceeded)` holds for the wrapped
error `verifyPayment` returned.  A bad-status error is built with
`fmt.Errorf` without `%w`, so it never wraps the deadline error. -/
def VerifyErr.isDeadlineExceeded : VerifyErr → Bool
  | .requestFailed b => b
  | .badStatus _ => false
  | .decodeFailed b => b

/-- verifyPayment: builds the PaymentContext from configuration and the
caller's nonce, POSTs it with the signature to the verifier (modelled by the
`oracle`), and classifies the outcome exactly as the source does. -/
def verifyPayment (cfg : GatewayConfig) (oracle : VerifyRequest → WireOutcome)
    (signature nonce : Bytes) : Except VerifyErr (VerifyResponse × PaymentContext) :=
  let paymentCtx := verifyPaymentContext cfg nonce
  let verifyReq : VerifyRequest := { context := paymentCtx, signature := signature }
  match oracle verifyReq with
  | .transportErr b => .error (.requestFailed b)
  | .reply code body =>
    if code ≠ 200 then .error (.badStatus code)
    else
      match body with
      | .failed b => .error (.decodeFailed b)
      | .ok vr => .ok (vr, paymentCtx)

/-- The error mapping `handleSummarize` (and the cache-hit path) applies to a
`verifyPayment` failure: 504 when the error wraps the deadline, else 500. -/
def verifyErrResponse (e : VerifyErr) : HttpResponse :=
  if e.isDeadlineExceeded then jsonResponse 504 verifierTimeoutBody
  else jsonResponse 500 verificationFailedBody

/-! ## Receipt issuance and `generateAndSendReceipt` -/

/-- Ambient data consumed by receipt issuance: the freshly generated id
suffix, the current time, whether the server signing key loads, and the
signature/public-key hex the signer produces. -/
structure ReceiptGen where
  newID : Bytes
  now : Int
  keyOk : Bool
  sigHex : Bytes
  pubKeyHex : Bytes
  errMsg : Bytes
deriving Repr, DecidableEq

/-- Modelled from the spec: `GenerateReceipt` lives in the repository's
receipt source file, which is absent from the snapshot (only its callers and
`validateReceipt` are present).  Per the spec, issuance computes content
hashes of the exact request and response bytes, assembles the receipt with a
`rcpt_`-prefixed fresh id and the payment details, signs it with the server
key (`0x` prefixed), and fails when the key is unavailable. -/
def GenerateReceipt (h : Bytes → Bytes) (g : ReceiptGen) (paymentCtx : PaymentContext)
    (recoveredAddr endpointPath requestBody responseBody : Bytes) :
    Except Bytes SignedReceipt :=
  if g.keyOk then
    .ok
      { receipt :=
          { id := "rcpt_".toList ++ g.newID
            version := "1.0".toList
            timestamp := g.now
            payment :=
              { payer := recoveredAddr
                recipient := paymentCtx.recipient
                amount := paymentCtx.amount
                token := paymentCtx.token
                nonce := paymentCtx.nonce }
            service :=
              { endpoint := endpointPath
                requestHash := h requestBody
                responseHash := h responseBody } }
        signature := "0x".toList ++ g.sigHex
        serverPublicKey := "0x".toList ++ g.pubKeyHex }
  else .error g.errMsg

/-- validateReceipt: the field-presence and prefix checks `storeReceipt`
performs before storing (gateway `main.go`). -/
def validateReceipt (r : SignedReceipt) : Bool :=
  !r.receipt.id.isEmpty &&
  "rcpt_".toList.isPrefixOf r.receipt.id &&
  !r.receipt.version.isEmpty &&
  (r.receipt.timestamp != 0) &&
  !r.receipt.payment.payer.isEmpty &&
  !r.receipt.payment.recipient.isEmpty &&
  !r.receipt.payment.amount.isEmpty &&
  !r.receipt.payment.token.isEmpty &&
  !r.receipt.payment.nonce.isEmpty &&
  !r.receipt.service.endpoint.isEmpty &&
  !r.receipt.service.requestHash.isEmpty &&
  !r.receipt.service.responseHash.isEmpty &&
  !r.signature.isEmpty &&
  "0x".toList.isPrefixOf r.signature &&
  !r.serverPublicKey.isEmpty &&
  "0x".toList.isPrefixOf r.serverPublicKey

/-- storeReceipt succeeds exactly when `validateReceipt` passes; the
in-memory map insert itself cannot fail. -/
def storeReceiptOk (r : SignedReceipt) : Bool := validateReceipt r

/-- generateAndSendReceipt: builds the response body (without the receipt),
issues a receipt whose response hash is taken over exactly those body bytes,
stores it, and sends it in the `X-402-Receipt` header only, alongside
`c.JSON(200, responseMap)`.  Returns the response together with the receipt
that was sent, if any.  (`json.Marshal` of the assembled receipt struct
cannot fail, so the encode-failure branch of the source is unreachable.) -/
def generateAndSendReceipt (h : Bytes → Bytes) (g : ReceiptGen)
    (paymentCtx : PaymentContext) (recoveredAddr : Bytes) (path : Bytes)
    (requestBody : Bytes) (aiResult : Bytes) : HttpResponse × Option SignedReceipt :=
  let responseBody := jsonMarshalResult aiResult
  match GenerateReceipt h g paymentCtx recoveredAddr path requestBody responseBody with
  | .error msg => (jsonResponse 500 (genReceiptFailBody msg), none)
  | .ok receipt =>
    if storeReceiptOk receipt then
      ({ status := 200
         headers := [contentTypeJSON]
         body := responseBody
         receiptHeader := some receipt }, some receipt)
    else (jsonResponse 500 storeReceiptFailBody, none)

/-! ## handleSummarize (gateway `main.go`) -/

/-- Outcome of reading the request body (possibly behind `MaxBytesReader`). -/
inductive BodyReadOutcome
  | ok (body : Bytes)
  | tooLarge
  | readErr
deriving Repr, DecidableEq

/-- Outcome of `callOpenRouter`: a summary, a deadline-exceeded failure, or
another failure with its message. -/
inductive AIErr
  | deadlineExceeded
  | other (msg : Bytes)
deriving Repr, DecidableEq

/-- Collaborators and ambient inputs of one `handleSummarize` execution. -/
structure SummarizeEnv where
  cfg : GatewayConfig
  freshNonce : Bytes
  oracle : VerifyRequest → WireOutcome
  unmarshalText : Bytes → Option Bytes
  ai : Bytes → Except AIErr Bytes
  hash : Bytes → Bytes
  gen : ReceiptGen

/-- handleSummarize: 402 without both payment headers; then body read; then
payment verification (504/500/403); then request parse (400) and empty-text
check (400); then the AI call (504/500); finally receipt issuance and the
200 response. -/
def handleSummarize (env : SummarizeEnv) (signature nonce : Bytes)
    (bodyRead : BodyReadOutcome) (path : Bytes) : HttpResponse :=
  if signature.isEmpty || nonce.isEmpty then
    jsonResponse 402 (paymentRequiredBody (createPaymentContext env.cfg env.freshNonce))
  else
    match bodyRead with
    | .tooLarge => jsonResponse 413 payloadTooLargeBody
    | .readErr => jsonResponse 500 bodyReadFailBody
    | .ok requestBody =>
      match verifyPayment env.cfg env.oracle signature nonce with
      | .error e => verifyErrResponse e
      | .ok (vr, paymentCtx) =>
        if vr.is_valid = false then jsonResponse 403 (invalidSignatureBody vr.error)
        else
          match env.unmarshalText requestBody with
          | none => jsonResponse 400 invalidRequestBody
          | some text =>
            if text.isEmpty then jsonResponse 400 emptyTextBody
            else
              match env.ai text with
              | .error .deadlineExceeded => jsonResponse 504 aiTimeoutBody
              | .error (.other msg) => jsonResponse 500 (aiFailedBody msg)
              | .ok summary =>
                (generateAndSendReceipt env.hash env.gen paymentCtx
                  vr.recovered_address path requestBody summary).1

/-! ## CacheMiddleware (gateway `cache.go`) -/

/-- The value stored in the response cache. -/
structure CachedResponse where
  result : Bytes
  cached_at : Int
deriving Repr, DecidableEq

/-- Cache-hit path of `CacheMiddleware`: verify the payment first, mapping a
verification error to 504/500 and a negative result to 403 with the
verifier's detail; only on a positive result synthesize the response and
receipt from the cached result. -/
def cacheMiddlewareHit (h : Bytes → Bytes) (g : ReceiptGen)
    (verifyOutcome : Except VerifyErr (VerifyResponse × PaymentContext))
    (cached : CachedResponse) (requestBody path : Bytes) : HttpResponse :=
  match verifyOutcome with
  | .error e => verifyErrResponse e
  | .ok (vr, paymentCtx) =>
    if vr.is_valid = false then jsonResponse 403 (invalidSignatureBody vr.error)
    else (generateAndSendReceipt h g paymentCtx vr.recovered_address path
            requestBody cached.result).1

/-- Unmarshal of the captured response body into
`map[string]interface\x7b\x7d` followed by extraction of a string `result`
field, as the miss path does before storing. -/
def unmarshalResultField (body : Bytes) : Option Bytes :=
  match peelStart ("\x7b\"result\":\"".toList) body with
  | none => none
  | some rest =>
    match decodeStringBody rest with
    | some (s, rest2) => if rest2 = "\x7d".toList then some s else none
    | none => none

/-- Miss-path store decision: the result is stored if and only if the final
status is 200 and the captured body carries a string `result` field. -/
def cacheMissStoreDecision (resp : HttpResponse) : Option Bytes :=
  if resp.status = 200 then unmarshalResultField resp.body else none

/-- The bounded timeout (seconds) of the detached cache-store goroutine. -/
def cacheStoreTimeoutSeconds : Nat := 5

/-- In-memory view of the external cache keyed by cache key. -/
abbrev CacheState := List (Bytes × Bytes)

/-- storeInCache: attempts the Redis SET; any failure (modelled by
`available = false`) is logged and absorbed, leaving the store unchanged and
reporting nothing to the caller. -/
def storeInCache (available : Bool) (st : CacheState) (key value : Bytes) : CacheState :=
  if available then (key, value) :: st.filter (fun p => p.1 ≠ key) else st

/-- Tail of the miss path: the handler's response has already been streamed
to the client through `cachedWriter`; the store (if any) runs detached and
cannot alter it. -/
def cacheMissPipeline (resp : HttpResponse) (available : Bool) (st : CacheState)
    (key : Bytes) : HttpResponse × CacheState :=
  match cacheMissStoreDecision resp with
  | some result => (resp, storeInCache available st key result)
  | none => (resp, st)

/-! ## RequestTimeoutMiddleware and its buffered writer
(gateway `middleware.go`) -/

/-- The buffered writer's state: body buffer, header map, status code, the
written flag and the closed flag set when the deadline fires. -/
structure BufferedWriter where
  buf : Bytes
  head : List (Bytes × Bytes)
  status : Nat
  wrote : Bool
  closed : Bool
deriving Repr, DecidableEq

/-- newBufferedWriter: empty buffer and headers, status 200, open. -/
def newBufferedWriter : BufferedWriter :=
  { buf := [], head := [], status := 200, wrote := false, closed := false }

/-- Write: drops the data silently (returning 0 and no error) once the
writer is closed; otherwise appends to the buffer. -/
def BufferedWriter.Write (b : BufferedWriter) (data : Bytes) : BufferedWriter × Nat :=
  if b.closed then (b, 0)
  else ({ b with buf := b.buf ++ data, wrote := true }, data.length)

/-- WriteString: same behaviour as `Write`. -/
def BufferedWriter.WriteString (b : BufferedWriter) (s : Bytes) : BufferedWriter × Nat :=
  if b.closed then (b, 0)
  else ({ b with buf := b.buf ++ s, wrote := true }, s.length)

/-- WriteHeader: records the status code unless the writer is closed. -/
def BufferedWriter.WriteHeader (b : BufferedWriter) (statusCode : Nat) : BufferedWriter :=
  if b.closed then b else { b with status := statusCode }

/-- WriteHeaderNow: defaults the status and marks the writer as written; the
source performs this without a closed check. -/
def BufferedWriter.WriteHeaderNow (b : BufferedWriter) : BufferedWriter :=
  { b with status := if b.status = 0 then 200 else b.status, wrote := true }

/-- Status: the handler's status, or 200 when unset. -/
def BufferedWriter.Status (b : BufferedWriter) : Nat :=
  if b.status = 0 then 200 else b.status

/-- `http.Header.Set` semantics on the association-list view of the header
map: replace any existing values for the key. -/
def headerSet (head : List (Bytes × Bytes)) (k v : Bytes) : List (Bytes × Bytes) :=
  head.filter (fun p => p.1 ≠ k) ++ [(k, v)]

/-- Header mutation through the map returned by `Header()`; the source has
no closed check on this path. -/
def BufferedWriter.setHeader (b : BufferedWriter) (k v : Bytes) : BufferedWriter :=
  { b with head := headerSet b.head k v }

/-- One handler interaction with the writer shim. -/
inductive WriterOp
  | write (data : Bytes)
  | writeString (data : Bytes)
  | writeHeader (code : Nat)
  | writeHeaderNow
  | setHeader (k v : Bytes)
deriving Repr, DecidableEq

def BufferedWriter.applyOp (b : BufferedWriter) : WriterOp → BufferedWriter
  | .write d => (b.Write d).1
  | .writeString d => (b.WriteString d).1
  | .writeHeader c => b.WriteHeader c
  | .writeHeaderNow => b.WriteHeaderNow
  | .setHeader k v => b.setHeader k v

def BufferedWriter.applyOps (b : BufferedWriter) (ops : List WriterOp) : BufferedWriter :=
  ops.foldl BufferedWriter.applyOp b

/-- flushTo: copies the buffered headers, writes the buffered status and the
buffered body to the real transport. -/
def BufferedWriter.flushTo (b : BufferedWriter) : HttpResponse :=
  { status := b.Status, headers := b.head, body := b.buf }

/-- The fixed JSON timeout body written on deadline expiry. -/
def timeoutBody : Bytes :=
  "\x7b\"error\":\"Gateway Timeout\",\"message\":\"Request exceeded maximum allowed time\"\x7d".toList

/-- The one response the middleware writes directly to the real transport
when the deadline fires. -/
def timeout504Response : HttpResponse :=
  { status := 504
    headers := [("Content-Type".toList, "application/json; charset=utf-8".toList)]
    body := timeoutBody }

/-- COMPLETED-first branch: the handler ran all its writer operations, then
the middleware flushes the buffer to the real transport. -/
def runCompleted (ops : List WriterOp) : HttpResponse :=
  (newBufferedWriter.applyOps ops).flushTo

/-- The deadline branch marks the buffer closed. -/
def markClosed (b : BufferedWriter) : BufferedWriter := { b with closed := true }

/-- Deadline-first branch: `pre` are the handler's writer operations that ran
before the deadline fired, `post` those the still-running handler performs
afterwards.  The middleware closes the buffer, writes the fixed 504 response
to the real transport, and never flushes the buffer. -/
def runTimedOut (pre post : List WriterOp) : HttpResponse × BufferedWriter :=
  let w1 := newBufferedWriter.applyOps pre
  (timeout504Response, (markClosed w1).applyOps post)

/-! ### Client-observable content of the handler's writes (specification
side, defined on the operation list alone) -/

def handlerBody : List WriterOp → Bytes
  | [] => []
  | .write d :: rest => d ++ handlerBody rest
  | .writeString d :: rest => d ++ handlerBody rest
  | .writeHeader _ :: rest => handlerBody rest
  | .writeHeaderNow :: rest => handlerBody rest
  | .setHeader _ _ :: rest => handlerBody rest

def statusStep (s : Nat) : WriterOp → Nat
  | .writeHeader c => c
  | .writeHeaderNow => if s = 0 then 200 else s
  | _ => s

def handlerStatus (ops : List WriterOp) : Nat :=
  if ops.foldl statusStep 200 = 0 then 200 else ops.foldl statusStep 200

def headerStep (head : List (Bytes × Bytes)) : WriterOp → List (Bytes × Bytes)
  | .setHeader k v => headerSet head k v
  | _ => head

def handlerHeaders (ops : List WriterOp) : List (Bytes × Bytes) :=
  ops.foldl headerStep []

/-! ## Deadline derivation (RequestTimeoutMiddleware entry) -/

/-- Go `context.WithDeadline` semantics on the deadline alone: if the parent
already has an earlier deadline, the derived context keeps it. -/
def goContextWithDeadline (parentDeadline : Option Int) (d : Int) : Int :=
  match parentDeadline with
  | some cur => if cur < d then cur else d
  | none => d

/-- Go `context.WithTimeout parent t` is `WithDeadline parent (now + t)`. -/
def goContextWithTimeout (parentDeadline : Option Int) (now timeout : Int) : Int :=
  goContextWithDeadline parentDeadline (now + timeout)

/-- The deadline the middleware derives on entry: non-positive timeouts go
through `context.WithTimeout`; otherwise an existing earlier deadline is kept
(the parent context is reused), else a deadline at `now + timeout` is set. -/
def requestTimeoutDeadline (timeout now : Int) (parentDeadline : Option Int) : Int :=
  if timeout ≤ 0 then goContextWithTimeout parentDeadline now timeout
  else
    match parentDeadline with
    | some d =>
      if d < now + timeout then d
      else goContextWithDeadline parentDeadline (now + timeout)
    | none => goContextWithTimeout parentDeadline now timeout

/-- The specification's words: the earliest of the already-carried deadline
and now-plus-configured-timeout. -/
def earliestDeadline (parentDeadline : Option Int) (candidate : Int) : Int :=
  match parentDeadline with
  | some d => min d candidate
  | none => candidate

/-! ## TokenBucket rate limiter -/

/-- Modelled from the spec: the token-bucket implementation file is not in
the snapshot (only its unit tests and its callers are).  Per the spec, a
bucket holds fractional available tokens, a capacity (the burst size), and a
refill rate in tokens per second. -/
structure TokenBucket where
  tokens : ℚ
  capacity : ℚ
  refillRatePerSec : ℚ
deriving Repr, DecidableEq

/-- Modelled from the spec: a fresh bucket of capacity `B` and rate `R`
starts at full capacity. -/
def freshBucket (B : ℕ) (R : ℚ) : TokenBucket :=
  { tokens := B, capacity := B, refillRatePerSec := R }

/-- Modelled from the spec: `NewTokenBucket rpm burst` refills at `rpm/60`
tokens per second with burst-size capacity. -/
def NewTokenBucket (rpm burst : ℕ) : TokenBucket :=
  freshBucket burst ((rpm : ℚ) / 60)

/-- Modelled from the spec: lazy continuous refill from elapsed wall-clock
seconds, capped at capacity. -/
def TokenBucket.refill (b : TokenBucket) (elapsedSec : ℚ) : TokenBucket :=
  { b with tokens := min b.capacity (b.tokens + b.refillRatePerSec * elapsedSec) }

/-- Modelled from the spec: `Allow` refills lazily, succeeds iff at least
one token is available, and deducts exactly one on success. -/
def TokenBucket.Allow (b : TokenBucket) (elapsedSec : ℚ) : Bool × TokenBucket :=
  let b2 := b.refill elapsedSec
  if 1 ≤ b2.tokens then (true, { b2 with tokens := b2.tokens - 1 }) else (false, b2)

/-- Modelled from the spec: `AllowN` deducts `n` atomically only when `n`
tokens are available, otherwise deducts nothing. -/
def TokenBucket.AllowN (b : TokenBucket) (elapsedSec : ℚ) (n : ℕ) : Bool × TokenBucket :=
  let b2 := b.refill elapsedSec
  if (n : ℚ) ≤ b2.tokens then (true, { b2 with tokens := b2.tokens - n }) else (false, b2)

/-- Cold-start admission sequence: `k` back-to-back `Allow` calls with no
elapsed time between them. -/
def allowRun (b : TokenBucket) : ℕ → TokenBucket
  | 0 => b
  | k + 1 => ((allowRun b k).Allow 0).2

/-! ## Rate-limit 429 response and calculateRetryAfter (gateway `main.go`) -/

/-- calculateRetryAfter: seconds until the bucket resets, clamped below at
one second. -/
def calculateRetryAfter (resetTime now : Int) : Int :=
  let retryAfter := resetTime - now
  if retryAfter < 1 then 1 else retryAfter

/-- The gin.H body of a 429 (map keys in sorted order; `retry_after` is a
bare JSON number). -/
def rateLimitExceededBody (retryAfter : Int) : Bytes :=
  "\x7b\"error\":\"Too Many Requests\",\"message\":\"Rate limit exceeded. Please retry later.\",\"retry_after\":".toList
    ++ intToBytes retryAfter ++ "\x7d".toList

/-- The full 429 response `RateLimitMiddleware` sends on a denied request:
`Retry-After` and the `X-RateLimit-*` headers plus the JSON body. -/
def rateLimit429 (tierLimit : Int) (resetTime now : Int) : HttpResponse :=
  let retryAfter := calculateRetryAfter resetTime now
  { status := 429
    headers :=
      [("Retry-After".toList, intToBytes retryAfter),
       ("X-RateLimit-Limit".toList, intToBytes tierLimit),
       ("X-RateLimit-Remaining".toList, "0".toList),
       ("X-RateLimit-Reset".toList, intToBytes resetTime)]
    body := rateLimitExceededBody retryAfter }

/-- The admission gate of `RateLimitMiddleware`: a denied request gets the
429 response; an allowed one proceeds (no response from the middleware). -/
def RateLimitMiddleware (allowed : Bool) (tierLimit resetTime now : Int) :
    Option HttpResponse :=
  if allowed then none else some (rateLimit429 tierLimit resetTime now)

/-! ## Theorems -/

/-- C10: for every rate-limited (429) response, the retry_after value in the
JSON body and the Retry-After header is at least 1 second:
`calculateRetryAfter` clamps the computed seconds-until-reset to a minimum
of 1 even when the bucket's reset time is in the past or the current
second. -/
theorem spec_c10_retry_after_at_least_one (tierLimit resetTime now : Int) :
    1 ≤ calculateRetryAfter resetTime now ∧
    RateLimitMiddleware false tierLimit resetTime now =
      some (rateLimit429 tierLimit resetTime now) ∧
    (rateLimit429 tierLimit resetTime now).headers.head? =
      some ("Retry-After".toList, intToBytes (calculateRetryAfter resetTime now)) ∧
    (rateLimit429 tierLimit resetTime now).body =
      rateLimitExceededBody (calculateRetryAfter resetTime now) := by
  refine ⟨?_, rfl, rfl, rfl⟩
  simp only [calculateRetryAfter]
  split <;> omega

/-- C6: for every inbound request, the derived deadline of
`RequestTimeoutMiddleware` is the minimum of any deadline already carried by
the request and now-plus-configured-timeout; an existing earlier deadline is
kept, never extended. -/
theorem spec_c6_deadline_is_earliest (timeout now : Int) (parentDeadline : Option Int) :
    requestTimeoutDeadline timeout now parentDeadline =
      earliestDeadline parentDeadline (now + timeout) := by
  unfold requestTimeoutDeadline earliestDeadline goContextWithTimeout goContextWithDeadline
  cases parentDeadline with
  | none => split <;> rfl
  | some d =>
    simp only [min_def]
    split_ifs <;> omega

/-- Once the buffer is closed, applying any sequence of handler writer
operations leaves the buffered body unchanged and the writer closed. -/
theorem applyOps_closed (ops : List WriterOp) :
    ∀ b : BufferedWriter, b.closed = true →
      (b.applyOps ops).buf = b.buf ∧ (b.applyOps ops).closed = true := by
  induction ops with
  | nil => intro b hb; exact ⟨rfl, hb⟩
  | cons op rest ih =>
    intro b hb
    have hstep : (b.applyOp op).buf = b.buf ∧ (b.applyOp op).closed = true := by
      cases op <;>
        simp [BufferedWriter.applyOp, BufferedWriter.Write,
          BufferedWriter.WriteString, BufferedWriter.WriteHeader,
          BufferedWriter.WriteHeaderNow, BufferedWriter.setHeader, hb]
    have hrest := ih (b.applyOp op) hstep.2
    have hfold : b.applyOps (op :: rest) = (b.applyOp op).applyOps rest := rfl
    rw [hfold, hrest.1]
    exact ⟨hstep.1, hrest.2⟩

/-- C2: for every request whose deadline elapses before the handler
completes, the client receives exactly the one fixed 504 JSON timeout
response, no handler-written bytes (from before or after the deadline) ever
reach the client, and once the buffer is marked closed every subsequent
handler write is a silent no-op (state unchanged, 0 bytes reported). -/
theorem spec_c2_timeout_fixed_body (pre post : List WriterOp) :
    (runTimedOut pre post).1 = timeout504Response ∧
    (runTimedOut pre post).1.body = timeoutBody ∧
    (runTimedOut pre post).2.buf = (newBufferedWriter.applyOps pre).buf ∧
    (∀ b : BufferedWriter, ∀ d : Bytes, (markClosed b).Write d = (markClosed b, 0)) ∧
    (∀ b : BufferedWriter, ∀ s : Bytes, (markClosed b).WriteString s = (markClosed b, 0)) := by
  refine ⟨rfl, rfl, ?_, ?_, ?_⟩
  · exact (applyOps_closed post (markClosed _) rfl).1
  · intro b d; simp [markClosed, BufferedWriter.Write]
  · intro b s; simp [markClosed, BufferedWriter.WriteString]

/-- On an open buffer, a sequence of handler writer operations accumulates
exactly the written bytes in order, the folded header mutations, and the
folded status updates, and leaves the writer open. -/
theorem applyOps_open (ops : List WriterOp) :
    ∀ b : BufferedWriter, b.closed = false →
      (b.applyOps ops).buf = b.buf ++ handlerBody ops ∧
      (b.applyOps ops).head = ops.foldl headerStep b.head ∧
      (b.applyOps ops).status = ops.foldl statusStep b.status ∧
      (b.applyOps ops).closed = false := by
  induction ops with
  | nil =>
    intro b hb
    exact ⟨by simp [BufferedWriter.applyOps, handlerBody], rfl, rfl, hb⟩
  | cons op rest ih =>
    intro b hb
    have hb' : (b.applyOp op).closed = false := by
      cases op <;>
        simp [BufferedWriter.applyOp, BufferedWriter.Write,
          BufferedWriter.WriteString, BufferedWriter.WriteHeader,
          BufferedWriter.WriteHeaderNow, BufferedWriter.setHeader, hb]
    obtain ⟨e1, e2, e3, e4⟩ := ih (b.applyOp op) hb'
    have hfold : b.applyOps (op :: rest) = (b.applyOp op).applyOps rest := rfl
    refine ⟨?_, ?_, ?_, by rw [hfold]; exact e4⟩ <;> rw [hfold] <;>
      cases op <;>
        simp_all [BufferedWriter.applyOp, BufferedWriter.Write,
          BufferedWriter.WriteString, BufferedWriter.WriteHeader,
          BufferedWriter.WriteHeaderNow, BufferedWriter.setHeader,
          handlerBody, statusStep, headerStep, List.append_assoc, hb]

/-- C7: for every handler that completes before its deadline, the middleware
flushes the buffered response verbatim — the client receives exactly the
status, headers and body bytes the handler wrote. -/
theorem spec_c7_completed_flush_verbatim (ops : List WriterOp) :
    runCompleted ops =
      { status := handlerStatus ops
        headers := handlerHeaders ops
        body := handlerBody ops } := by
  obtain ⟨e1, e2, e3, e4⟩ := applyOps_open ops newBufferedWriter rfl
  simp only [newBufferedWriter] at e1 e2 e3
  unfold runCompleted BufferedWriter.flushTo BufferedWriter.Status
  simp [newBufferedWriter, e1, e2, e3, handlerStatus, handlerHeaders]

/-- The one request `verifyPayment` sends to the verifier. -/
def verifierQuery (cfg : GatewayConfig) (signature nonce : Bytes) : VerifyRequest :=
  { context := verifyPaymentContext cfg nonce, signature := signature }

/-- Unfolding of `verifyPayment` over the oracle's answer to the one query
it sends. -/
theorem verifyPayment_eq (cfg : GatewayConfig) (oracle : VerifyRequest → WireOutcome)
    (signature nonce : Bytes) :
    verifyPayment cfg oracle signature nonce =
      match oracle (verifierQuery cfg signature nonce) with
      | .transportErr b => .error (.requestFailed b)
      | .reply code body =>
        if code ≠ 200 then .error (.badStatus code)
        else
          match body with
          | .failed b => .error (.decodeFailed b)
          | .ok vr => .ok (vr, verifyPaymentContext cfg nonce) := rfl

/-- C1: on a cache hit the cached result is served only after a positive
verification; a negative verification yields 403 with the verifier's detail
string, and the cached body is never returned (the response of any
non-positive outcome is independent of the cached entry). -/
theorem spec_c1_cache_hit_gated (h : Bytes → Bytes) (g : ReceiptGen)
    (v : Except VerifyErr (VerifyResponse × PaymentContext))
    (cached cached' : CachedResponse) (requestBody path : Bytes) :
    ((cacheMiddlewareHit h g v cached requestBody path).status = 200 →
      ∃ vr pc, v = .ok (vr, pc) ∧ vr.is_valid = true) ∧
    (∀ vr pc, v = .ok (vr, pc) → vr.is_valid = false →
      cacheMiddlewareHit h g v cached requestBody path =
        jsonResponse 403 (invalidSignatureBody vr.error)) ∧
    (∀ vr pc, v = .ok (vr, pc) → vr.is_valid = true →
      cacheMiddlewareHit h g v cached requestBody path =
        (generateAndSendReceipt h g pc vr.recovered_address path requestBody
          cached.result).1) ∧
    ((∀ vr pc, v = .ok (vr, pc) → vr.is_valid = false) →
      cacheMiddlewareHit h g v cached requestBody path =
        cacheMiddlewareHit h g v cached' requestBody path) := by
  refine ⟨?_, ?_, ?_, ?_⟩
  · intro h200
    cases v with
    | error e =>
      cases he : e.isDeadlineExceeded <;>
        simp [cacheMiddlewareHit, verifyErrResponse, he, jsonResponse] at h200
    | ok p =>
      obtain ⟨vr, pc⟩ := p
      cases hval : vr.is_valid with
      | false => simp [cacheMiddlewareHit, hval, jsonResponse] at h200
      | true => exact ⟨vr, pc, rfl, hval⟩
  · intro vr pc heq hval
    subst heq
    unfold cacheMiddlewareHit
    simp [hval]
  · intro vr pc heq hval
    subst heq
    unfold cacheMiddlewareHit
    simp [hval]
  · intro hneg
    cases v with
    | error e => rfl
    | ok p =>
      obtain ⟨vr, pc⟩ := p
      have hval := hneg vr pc rfl
      unfold cacheMiddlewareHit
      simp [hval]

/-- C4: verification failures map to responses exactly as classified: a
transport failure, a non-200 verifier status, or a response-decode failure
(when not itself caused by the deadline) yields a generic error surfaced as
HTTP 500; a deadline-exceeded failure yields the distinguished timeout
error surfaced as HTTP 504; and a validity=false verifier result is a
normal result surfaced as HTTP 403 with the verifier's detail string. -/
theorem spec_c4_verify_failure_mapping (env : SummarizeEnv) (signature nonce : Bytes)
    (requestBody path : Bytes)
    (hs : signature.isEmpty = false) (hn : nonce.isEmpty = false) :
    (∀ b, env.oracle (verifierQuery env.cfg signature nonce) = .transportErr b →
      verifyPayment env.cfg env.oracle signature nonce = .error (.requestFailed b) ∧
      handleSummarize env signature nonce (.ok requestBody) path =
        (if b then jsonResponse 504 verifierTimeoutBody
         else jsonResponse 500 verificationFailedBody)) ∧
    (∀ code d, env.oracle (verifierQuery env.cfg signature nonce) = .reply code d →
      code ≠ 200 →
      verifyPayment env.cfg env.oracle signature nonce = .error (.badStatus code) ∧
      handleSummarize env signature nonce (.ok requestBody) path =
        jsonResponse 500 verificationFailedBody) ∧
    (∀ b, env.oracle (verifierQuery env.cfg signature nonce) = .reply 200 (.failed b) →
      verifyPayment env.cfg env.oracle signature nonce = .error (.decodeFailed b) ∧
      handleSummarize env signature nonce (.ok requestBody) path =
        (if b then jsonResponse 504 verifierTimeoutBody
         else jsonResponse 500 verificationFailedBody)) ∧
    (∀ vr, env.oracle (verifierQuery env.cfg signature nonce) = .reply 200 (.ok vr) →
      verifyPayment env.cfg env.oracle signature nonce =
        .ok (vr, verifyPaymentContext env.cfg nonce) ∧
      (vr.is_valid = false →
        handleSummarize env signature nonce (.ok requestBody) path =
          jsonResponse 403 (invalidSignatureBody vr.error))) := by
  have hsum : handleSummarize env signature nonce (.ok requestBody) path =
      match verifyPayment env.cfg env.oracle signature nonce with
      | .error e => verifyErrResponse e
      | .ok (vr, paymentCtx) =>
        if vr.is_valid = false then jsonResponse 403 (invalidSignatureBody vr.error)
        else
          match env.unmarshalText requestBody with
          | none => jsonResponse 400 invalidRequestBody
          | some text =>
            if text.isEmpty then jsonResponse 400 emptyTextBody
            else
              match env.ai text with
              | .error .deadlineExceeded => jsonResponse 504 aiTimeoutBody
              | .error (.other msg) => jsonResponse 500 (aiFailedBody msg)
              | .ok summary =>
                (generateAndSendReceipt env.hash env.gen paymentCtx
                  vr.recovered_address path requestBody summary).1 := by
    unfold handleSummarize
    simp [hs, hn]
  refine ⟨?_, ?_, ?_, ?_⟩
  · intro b ho
    have hv : verifyPayment env.cfg env.oracle signature nonce =
        .error (.requestFailed b) := by rw [verifyPayment_eq, ho]
    refine ⟨hv, ?_⟩
    rw [hsum, hv]
    cases b <;> simp [verifyErrResponse, VerifyErr.isDeadlineExceeded]
  · intro code d ho hcode
    have hv : verifyPayment env.cfg env.oracle signature nonce =
        .error (.badStatus code) := by rw [verifyPayment_eq, ho]; simp [hcode]
    refine ⟨hv, ?_⟩
    rw [hsum, hv]
    simp [verifyErrResponse, VerifyErr.isDeadlineExceeded]
  · intro b ho
    have hv : verifyPayment env.cfg env.oracle signature nonce =
        .error (.decodeFailed b) := by rw [verifyPayment_eq, ho]; simp
    refine ⟨hv, ?_⟩
    rw [hsum, hv]
    cases b <;> simp [verifyErrResponse, VerifyErr.isDeadlineExceeded]
  · intro vr ho
    have hv : verifyPayment env.cfg env.oracle signature nonce =
        .ok (vr, verifyPaymentContext env.cfg nonce) := by
      rw [verifyPayment_eq, ho]; simp
    refine ⟨hv, ?_⟩
    intro hval
    rw [hsum, hv]
    simp [hval]

/-- Requests processed against the verifier oracle, in order. -/
def runVerifySeq (cfg : GatewayConfig) (oracle : VerifyRequest → WireOutcome)
    (reqs : List (Bytes × Bytes)) :
    List (Except VerifyErr (VerifyResponse × PaymentContext)) :=
  reqs.map fun r => verifyPayment cfg oracle r.1 r.2

/-- C8: payment verification depends only on the caller's signature and
nonce plus fixed configuration — the PaymentContext is built directly from
the caller's nonce, no issued-challenge or used-nonce store is consulted, so
the outcome is the same regardless of the preceding request history and a
replay of the same signature and nonce is accepted again with the same
outcome. -/
theorem spec_c8_verification_stateless (cfg : GatewayConfig)
    (oracle oracle2 : VerifyRequest → WireOutcome)
    (hist1 hist2 : List (Bytes × Bytes)) (signature nonce : Bytes) :
    (runVerifySeq cfg oracle (hist1 ++ [(signature, nonce)])).getLast? =
      (runVerifySeq cfg oracle (hist2 ++ [(signature, nonce)])).getLast? ∧
    runVerifySeq cfg oracle [(signature, nonce), (signature, nonce)] =
      [verifyPayment cfg oracle signature nonce,
       verifyPayment cfg oracle signature nonce] ∧
    (oracle (verifierQuery cfg signature nonce) =
        oracle2 (verifierQuery cfg signature nonce) →
      verifyPayment cfg oracle signature nonce =
        verifyPayment cfg oracle2 signature nonce) ∧
    (∀ vr pc, verifyPayment cfg oracle signature nonce = .ok (vr, pc) →
      pc = verifyPaymentContext cfg nonce ∧ pc.nonce = nonce) := by
  refine ⟨?_, rfl, ?_, ?_⟩
  · simp [runVerifySeq]
  · intro hagree
    rw [verifyPayment_eq, verifyPayment_eq, hagree]
  · intro vr pc heq
    rw [verifyPayment_eq] at heq
    cases ho : oracle (verifierQuery cfg signature nonce) with
    | transportErr b => rw [ho] at heq; exact absurd heq (by simp)
    | reply code d =>
      rw [ho] at heq
      by_cases hcode : code = 200
      · subst hcode
        cases d with
        | failed b => simp at heq
        | ok vr2 =>
          simp at heq
          obtain ⟨-, h2⟩ := heq
          exact ⟨h2.symm, by rw [← h2]; rfl⟩
      · simp [hcode] at heq

/-- A successfully generated receipt carries the content hashes of exactly
the request and response bytes handed to issuance. -/
theorem GenerateReceipt_hashes (h : Bytes → Bytes) (g : ReceiptGen)
    (paymentCtx : PaymentContext)
    (recoveredAddr endpointPath requestBody responseBody : Bytes) (r : SignedReceipt)
    (hgen : GenerateReceipt h g paymentCtx recoveredAddr endpointPath requestBody
        responseBody = .ok r) :
    r.receipt.service.responseHash = h responseBody ∧
    r.receipt.service.requestHash = h requestBody := by
  unfold GenerateReceipt at hgen
  cases hk : g.keyOk with
  | false => rw [hk] at hgen; simp at hgen
  | true =>
    rw [hk] at hgen
    simp only [if_true] at hgen
    obtain rfl := (Except.ok.injEq _ _).mp hgen
    exact ⟨rfl, rfl⟩

/-- C5: for every successfully served request, the receipt's
response-content hash equals the hash of the exact body bytes sent to the
client, computed over the body excluding the receipt — the receipt travels
only in the `X-402-Receipt` header. -/
theorem spec_c5_receipt_hash_matches_body (h : Bytes → Bytes) (g : ReceiptGen)
    (paymentCtx : PaymentContext) (recoveredAddr path requestBody aiResult : Bytes)
    (hsent : (generateAndSendReceipt h g paymentCtx recoveredAddr path requestBody
        aiResult).2 ≠ none) :
    (generateAndSendReceipt h g paymentCtx recoveredAddr path requestBody
        aiResult).1.status = 200 ∧
    (generateAndSendReceipt h g paymentCtx recoveredAddr path requestBody
        aiResult).1.body = jsonMarshalResult aiResult ∧
    (generateAndSendReceipt h g paymentCtx recoveredAddr path requestBody
        aiResult).1.receiptHeader =
      (generateAndSendReceipt h g paymentCtx recoveredAddr path requestBody aiResult).2 ∧
    ((generateAndSendReceipt h g paymentCtx recoveredAddr path requestBody
        aiResult).2.map fun r => r.receipt.service.responseHash) =
      some (h ((generateAndSendReceipt h g paymentCtx recoveredAddr path requestBody
        aiResult).1.body)) := by
  cases hgen : GenerateReceipt h g paymentCtx recoveredAddr path requestBody
      (jsonMarshalResult aiResult) with
  | error msg =>
    exfalso
    apply hsent
    simp [generateAndSendReceipt, hgen]
  | ok receipt =>
    have hhash := GenerateReceipt_hashes h g paymentCtx recoveredAddr path requestBody
      (jsonMarshalResult aiResult) receipt hgen
    cases hstore : storeReceiptOk receipt with
    | false =>
      exfalso
      apply hsent
      simp [generateAndSendReceipt, hgen, hstore]
    | true =>
      simp [generateAndSendReceipt, hgen, hstore, hhash.1]

/-- The captured miss-path body of a 200 response is the marshalled
one-key result map. -/
theorem unmarshalResultField_marshal (r : Bytes) :
    unmarshalResultField (jsonMarshalResult r) = some r := by
  unfold unmarshalResultField jsonMarshalResult
  have h1 : "\x7b\"result\":\"".toList ++ encodeStringBody r ++ "\"\x7d".toList =
      "\x7b\"result\":\"".toList ++ (encodeStringBody r ++ '"' :: "\x7d".toList) := by
    rw [List.append_assoc]
    congr 2
  rw [h1, peelStart_append]
  simp [decodeStringBody_encode]

/-- Every 200 response `handleSummarize` produces has the marshalled
result map as its body. -/
theorem handleSummarize_status200 (env : SummarizeEnv) (signature nonce : Bytes)
    (bodyRead : BodyReadOutcome) (path : Bytes)
    (h200 : (handleSummarize env signature nonce bodyRead path).status = 200) :
    ∃ summary : Bytes,
      (handleSummarize env signature nonce bodyRead path).body =
        jsonMarshalResult summary := by
  cases hsn : (signature.isEmpty || nonce.isEmpty) with
  | true => simp [handleSummarize, hsn, jsonResponse] at h200
  | false =>
    cases bodyRead with
    | tooLarge => simp [handleSummarize, hsn, jsonResponse] at h200
    | readErr => simp [handleSummarize, hsn, jsonResponse] at h200
    | ok requestBody =>
      cases hv : verifyPayment env.cfg env.oracle signature nonce with
      | error e =>
        cases he : e.isDeadlineExceeded <;>
          simp [handleSummarize, hsn, hv, verifyErrResponse, he, jsonResponse] at h200
      | ok p =>
        obtain ⟨vr, pc⟩ := p
        cases hval : vr.is_valid with
        | false => simp [handleSummarize, hsn, hv, hval, jsonResponse] at h200
        | true =>
          cases hum : env.unmarshalText requestBody with
          | none => simp [handleSummarize, hsn, hv, hval, hum, jsonResponse] at h200
          | some text =>
            cases htext : text.isEmpty with
            | true =>
              simp [handleSummarize, hsn, hv, hval, hum, htext, jsonResponse] at h200
            | false =>
              cases hai : env.ai text with
              | error e2 =>
                cases e2 with
                | deadlineExceeded =>
                  simp [handleSummarize, hsn, hv, hval, hum, htext, hai,
                    jsonResponse] at h200
                | other msg =>
                  simp [handleSummarize, hsn, hv, hval, hum, htext, hai,
                    jsonResponse] at h200
              | ok summary =>
                refine ⟨summary, ?_⟩
                cases hgen : GenerateReceipt env.hash env.gen pc vr.recovered_address
                    path requestBody (jsonMarshalResult summary) with
                | error msg =>
                  simp [handleSummarize, hsn, hv, hval, hum, htext, hai,
                    generateAndSendReceipt, hgen, jsonResponse] at h200
                | ok receipt =>
                  cases hstore : storeReceiptOk receipt with
                  | false =>
                    simp [handleSummarize, hsn, hv, hval, hum, htext, hai,
                      generateAndSendReceipt, hgen, hstore, jsonResponse] at h200
                  | true =>
                    simp [handleSummarize, hsn, hv, hval, hum, htext, hai,
                      generateAndSendReceipt, hgen, hstore]

/-- C9: on a cache miss the result is stored if and only if the final
status is 200; the store is detached with its own 5-second timeout, and a
failing or unavailable cache never changes the response returned to the
client. -/
theorem spec_c9_store_iff_success (env : SummarizeEnv) (signature nonce : Bytes)
    (bodyRead : BodyReadOutcome) (path : Bytes) :
    ((cacheMissStoreDecision (handleSummarize env signature nonce bodyRead path)).isSome ↔
      (handleSummarize env signature nonce bodyRead path).status = 200) ∧
    (∀ resp available st key, (cacheMissPipeline resp available st key).1 = resp) ∧
    (∀ st key value, storeInCache false st key value = st) ∧
    cacheStoreTimeoutSeconds = 5 := by
  refine ⟨⟨?_, ?_⟩, ?_, ?_, rfl⟩
  · intro hsome
    by_cases h200 : (handleSummarize env signature nonce bodyRead path).status = 200
    · exact h200
    · unfold cacheMissStoreDecision at hsome
      simp [h200] at hsome
  · intro h200
    obtain ⟨summary, hbody⟩ :=
      handleSummarize_status200 env signature nonce bodyRead path h200
    unfold cacheMissStoreDecision
    simp [h200, hbody, unmarshalResultField_marshal]
  · intro resp available st key
    unfold cacheMissPipeline
    split <;> rfl
  · intro st key value
    simp [storeInCache]

/-- Cold-start state after `k ≤ B` back-to-back admissions from a fresh
bucket: exactly `k` tokens deducted. -/
theorem allowRun_fresh (B : ℕ) (R : ℚ) :
    ∀ k : ℕ, k ≤ B →
      allowRun (freshBucket B R) k =
        { tokens := (B : ℚ) - k, capacity := (B : ℚ), refillRatePerSec := R } := by
  intro k
  induction k with
  | zero =>
    intro _
    simp [allowRun, freshBucket]
  | succ k ih =>
    intro hk
    have hk' : k ≤ B := Nat.le_of_succ_le hk
    have hcast : (k : ℚ) + 1 ≤ (B : ℚ) := by exact_mod_cast hk
    have hk0 : (0 : ℚ) ≤ (k : ℚ) := by positivity
    rw [allowRun, ih hk']
    have hle : (B : ℚ) - k ≤ (B : ℚ) := by linarith
    have h1 : (1 : ℚ) ≤ (B : ℚ) - k := by linarith
    simp only [TokenBucket.Allow, TokenBucket.refill, mul_zero, add_zero,
      min_eq_right hle, if_pos h1]
    simp only [TokenBucket.mk.injEq]
    refine ⟨?_, trivial, trivial⟩
    push_cast
    ring

/-- C3: a fresh bucket of capacity B and rate R starts full; `Allow`
succeeds iff at least one token is available after the lazy refill and
deducts exactly one; `AllowN n` deducts n all-or-nothing; from a cold start
exactly B consecutive admissions succeed, the (B+1)th is denied, and after
1/R seconds at least one further admission succeeds. -/
theorem spec_c3_token_bucket (B : ℕ) (R : ℚ) (hB : 1 ≤ B) (hR : 0 < R) :
    (freshBucket B R).tokens = (B : ℚ) ∧
    (∀ b : TokenBucket, ∀ e : ℚ,
      (b.Allow e).1 = decide (1 ≤ (b.refill e).tokens) ∧
      (b.Allow e).2.tokens =
        (if 1 ≤ (b.refill e).tokens then (b.refill e).tokens - 1
         else (b.refill e).tokens) ∧
      ((b.Allow e).1 = false → (b.Allow e).2 = b.refill e)) ∧
    (∀ b : TokenBucket, ∀ e : ℚ, ∀ n : ℕ,
      (b.AllowN e n).1 = decide ((n : ℚ) ≤ (b.refill e).tokens) ∧
      (b.AllowN e n).2.tokens =
        (if (n : ℚ) ≤ (b.refill e).tokens then (b.refill e).tokens - n
         else (b.refill e).tokens) ∧
      ((b.AllowN e n).1 = false → (b.AllowN e n).2 = b.refill e)) ∧
    (∀ k, k < B → ((allowRun (freshBucket B R) k).Allow 0).1 = true) ∧
    ((allowRun (freshBucket B R) B).Allow 0).1 = false ∧
    ((allowRun (freshBucket B R) B).Allow (1 / R)).1 = true := by
  refine ⟨rfl, ?_, ?_, ?_, ?_, ?_⟩
  · intro b e
    refine ⟨?_, ?_, ?_⟩ <;>
      · simp only [TokenBucket.Allow]
        split <;> simp_all
  · intro b e n
    refine ⟨?_, ?_, ?_⟩ <;>
      · simp only [TokenBucket.AllowN]
        split <;> simp_all
  · intro k hk
    rw [allowRun_fresh B R k (Nat.le_of_lt hk)]
    have hcast : (k : ℚ) + 1 ≤ (B : ℚ) := by exact_mod_cast hk
    have hle : (B : ℚ) - k ≤ (B : ℚ) := by
      have : (0 : ℚ) ≤ (k : ℚ) := by positivity
      linarith
    have h1 : (1 : ℚ) ≤ (B : ℚ) - k := by linarith
    simp [TokenBucket.Allow, TokenBucket.refill, min_eq_right hle, h1]
  · rw [allowRun_fresh B R B le_rfl]
    have hB0 : (0 : ℚ) ≤ (B : ℚ) := by positivity
    norm_num [TokenBucket.Allow, TokenBucket.refill, sub_self, min_eq_right hB0]
  · rw [allowRun_fresh B R B le_rfl]
    have hRinv : R * R⁻¹ = 1 := mul_inv_cancel₀ (ne_of_gt hR)
    have hB1 : (1 : ℚ) ≤ (B : ℚ) := by exact_mod_cast hB
    simp [TokenBucket.Allow, TokenBucket.refill, sub_self, one_div, hRinv, hB1]

/-! ## Concrete witnesses -/

def c1hash : Bytes → Bytes := fun _ => ['h']

def c1gen : ReceiptGen :=
  { newID := ['a'], now := 1, keyOk := true, sigHex := ['f'], pubKeyHex := ['f'],
    errMsg := [] }

def c1vr : VerifyResponse :=
  { is_valid := false, recovered_address := [], error := "bad".toList }

def c1pc : PaymentContext :=
  { recipient := ['r'], token := "USDC".toList, amount := ['1'], nonce := ['n'],
    chainID := 8453 }

def c1cached : CachedResponse := { result := "res".toList, cached_at := 0 }

/-- Witness for C1 at a concrete negative verification: the hit path sends
403 with the verifier's detail and not the cached body. -/
theorem spec_c1_witness :
    cacheMiddlewareHit c1hash c1gen (.ok (c1vr, c1pc)) c1cached "x".toList "/".toList =
      jsonResponse 403 (invalidSignatureBody c1vr.error) :=
  (spec_c1_cache_hit_gated c1hash c1gen (.ok (c1vr, c1pc)) c1cached c1cached
    "x".toList "/".toList).2.1 c1vr c1pc rfl rfl

/-- Witness for C3 at capacity 5 and rate 1. -/
theorem spec_c3_witness :
    ((1 : ℕ) ≤ 5 ∧ (0 : ℚ) < 1) ∧
    (freshBucket 5 1).tokens = (5 : ℚ) ∧
    ((allowRun (freshBucket 5 1) 5).Allow 0).1 = false ∧
    ((allowRun (freshBucket 5 1) 5).Allow (1 / 1)).1 = true := by
  have h := spec_c3_token_bucket 5 1 (by norm_num) (by norm_num)
  exact ⟨⟨by norm_num, by norm_num⟩, h.1, h.2.2.2.2.1, h.2.2.2.2.2⟩

def c4cfg : GatewayConfig :=
  { recipientAddress := ['r'], paymentAmount := ['1'], chainID := 8453 }

def c4gen : ReceiptGen :=
  { newID := ['a'], now := 1, keyOk := true, sigHex := ['f'], pubKeyHex := ['f'],
    errMsg := [] }

def c4env : SummarizeEnv :=
  { cfg := c4cfg
    freshNonce := ['n']
    oracle := fun _ => .transportErr true
    unmarshalText := fun _ => none
    ai := fun _ => .error .deadlineExceeded
    hash := fun _ => ['h']
    gen := c4gen }

/-- Witness for C4 at a concrete deadline-exceeded transport failure. -/
theorem spec_c4_witness :
    verifyPayment c4env.cfg c4env.oracle "s".toList "n".toList =
      .error (.requestFailed true) ∧
    handleSummarize c4env "s".toList "n".toList (.ok "b".toList) "/".toList =
      jsonResponse 504 verifierTimeoutBody := by
  have h := spec_c4_verify_failure_mapping c4env "s".toList "n".toList "b".toList
    "/".toList (by decide) (by decide)
  have h2 := h.1 true rfl
  exact ⟨h2.1, by simpa using h2.2⟩

def c5hash : Bytes → Bytes := fun _ => ['h']

def c5gen : ReceiptGen :=
  { newID := ['a'], now := 1, keyOk := true, sigHex := ['f'], pubKeyHex := ['f'],
    errMsg := [] }

def c5pc : PaymentContext :=
  { recipient := ['r'], token := "USDC".toList, amount := ['1'], nonce := ['n'],
    chainID := 8453 }

/-- Witness for C5 at a concrete successful issuance. -/
theorem spec_c5_witness :
    (generateAndSendReceipt c5hash c5gen c5pc ['p'] ['/'] ['x'] ['o']).1.status = 200 ∧
    (generateAndSendReceipt c5hash c5gen c5pc ['p'] ['/'] ['x'] ['o']).1.body =
      jsonMarshalResult ['o'] ∧
    (generateAndSendReceipt c5hash c5gen c5pc ['p'] ['/'] ['x'] ['o']).1.receiptHeader =
      (generateAndSendReceipt c5hash c5gen c5pc ['p'] ['/'] ['x'] ['o']).2 ∧
    ((generateAndSendReceipt c5hash c5gen c5pc ['p'] ['/'] ['x'] ['o']).2.map
        fun r => r.receipt.service.responseHash) =
      some (c5hash
        ((generateAndSendReceipt c5hash c5gen c5pc ['p'] ['/'] ['x'] ['o']).1.body)) :=
  spec_c5_receipt_hash_matches_body c5hash c5gen c5pc ['p'] ['/'] ['x'] ['o'] (by decide)

def c8cfg : GatewayConfig :=
  { recipientAddress := ['r'], paymentAmount := ['1'], chainID := 8453 }

def c8vr : VerifyResponse :=
  { is_valid := true, recovered_address := ['p'], error := [] }

def c8oracleA : VerifyRequest → WireOutcome := fun _ => .reply 200 (.ok c8vr)

def c8oracleB : VerifyRequest → WireOutcome :=
  fun q => if q.signature = ['s'] then .reply 200 (.ok c8vr) else .transportErr false

/-- Witness for C8: two verifier oracles agreeing on the one query built
from the caller's signature and nonce give identical outcomes. -/
theorem spec_c8_witness :
    verifyPayment c8cfg c8oracleA ['s'] ['n'] =
      verifyPayment c8cfg c8oracleB ['s'] ['n'] :=
  (spec_c8_verification_stateless c8cfg c8oracleA c8oracleB [] [] ['s'] ['n']).2.2.1
    (by decide)

end Paygate
